import Mathlib

/-!
Verification development for the `gziphandler` HTTP response-compression
middleware.  The Go sources are shallowly embedded: the two alternative
implementations of the adaptive compressing response writer
(`gzip_responsewriter.go`, and the variant carried alongside `gzip.go`
with the `gzipResponse` / `headerWritten` flags) become pure state-passing
functions over an explicit writer state; the underlying
`http.ResponseWriter` sink is modelled as a trace of observable events
(status-line emissions, byte writes, flushes).
-/

namespace Gziphandler

/-- Header-name constants, from `gzip.go`. -/
def contentEncoding : String := "Content-Encoding"

def contentType : String := "Content-Type"

def contentLength : String := "Content-Length"

/-- Model of Go's `http.Header`: an association list from header name to
values.  Only the canonical-cased constant keys above are ever used by the
embedded code, so Go's key canonicalisation is the identity here. -/
structure Header where
  entries : List (String × List String)
deriving DecidableEq, Repr

def Header.empty : Header := ⟨[]⟩

/-- `_, ok := h[k]` — key-presence test. -/
def Header.has (h : Header) (k : String) : Bool :=
  h.entries.any (fun e => e.1 == k)

/-- `h.Get(k)`: first value for the key, or `""`. -/
def Header.get (h : Header) (k : String) : String :=
  match h.entries.find? (fun e => e.1 == k) with
  | some (_, v :: _) => v
  | _ => ""

/-- `h.Set(k, v)`: replace all values of the key by the single value. -/
def Header.set (h : Header) (k v : String) : Header :=
  ⟨(k, [v]) :: h.entries.filter (fun e => e.1 != k)⟩

/-- `h.Del(k)`. -/
def Header.del (h : Header) (k : String) : Header :=
  ⟨h.entries.filter (fun e => e.1 != k)⟩

section HeaderLemmas

variable (h : Header) (k k' v : String)

private lemma find?_filter_ne (l : List (String × List String)) (hne : k ≠ k') :
    (l.filter (fun e => e.1 != k)).find? (fun e => e.1 == k') =
      l.find? (fun e => e.1 == k') := by
  induction l with
  | nil => rfl
  | cons e t ih =>
    by_cases hek : e.1 = k
    · rw [List.filter_cons_of_neg (by simp [hek]),
        List.find?_cons_of_neg t (by simp [hek, hne]), ih]
    · rw [List.filter_cons_of_pos (by simp [hek])]
      by_cases hpk : e.1 = k'
      · rw [List.find?_cons_of_pos _ (by simp [hpk]),
          List.find?_cons_of_pos t (by simp [hpk])]
      · rw [List.find?_cons_of_neg _ (by simp [hpk]),
          List.find?_cons_of_neg t (by simp [hpk]), ih]

private lemma any_filter_self (l : List (String × List String)) :
    (l.filter (fun e => e.1 != k)).any (fun e => e.1 == k) = false := by
  induction l with
  | nil => rfl
  | cons e t ih =>
    by_cases hek : e.1 = k
    · rw [List.filter_cons_of_neg (by simp [hek])]
      exact ih
    · rw [List.filter_cons_of_pos (by simp [hek])]
      simp [List.any_cons, hek, ih]

private lemma any_filter_ne (l : List (String × List String)) (hne : k ≠ k') :
    (l.filter (fun e => e.1 != k)).any (fun e => e.1 == k') =
      l.any (fun e => e.1 == k') := by
  induction l with
  | nil => rfl
  | cons e t ih =>
    by_cases hek : e.1 = k
    · rw [List.filter_cons_of_neg (by simp [hek]), ih]
      have h2 : (e.1 == k') = false := by
        rw [hek]; exact beq_eq_false_iff_ne.mpr hne
      simp [List.any_cons, h2]
    · rw [List.filter_cons_of_pos (by simp [hek])]
      simp [List.any_cons, ih]

@[simp] lemma Header.get_set_self : (h.set k v).get k = v := by
  simp [Header.set, Header.get, List.find?]

lemma Header.get_set_ne (hne : k ≠ k') : (h.set k v).get k' = h.get k' := by
  have hkk : (k == k') = false := by simp [hne]
  simp [Header.set, Header.get, List.find?, hkk, find?_filter_ne _ _ _ hne]

lemma Header.get_del_ne (hne : k ≠ k') : (h.del k).get k' = h.get k' := by
  simp [Header.del, Header.get, find?_filter_ne _ _ _ hne]

@[simp] lemma Header.has_set_self : (h.set k v).has k = true := by
  simp [Header.set, Header.has]

lemma Header.has_set_ne (hne : k ≠ k') : (h.set k v).has k' = h.has k' := by
  have hkk : (k == k') = false := by simp [hne]
  simp [Header.set, Header.has, hkk, any_filter_ne _ _ _ hne]

@[simp] lemma Header.has_del_self : (h.del k).has k = false := by
  simp [Header.has, Header.del, any_filter_self]

lemma Header.has_del_ne (hne : k ≠ k') : (h.del k).has k' = h.has k' := by
  simp [Header.has, Header.del, any_filter_ne _ _ _ hne]

end HeaderLemmas

/-- Errors observable from the embedded code.  `shortWrite` is
`io.ErrShortWrite`. -/
inductive Err
  | shortWrite
deriving DecidableEq, Repr

/-- Observable events on the underlying `http.ResponseWriter` sink. -/
inductive SinkEvent
  | writeHeader (code : Nat)
  | write (bs : List Nat)
  | flush
deriving DecidableEq, Repr

/-- The uncompressed-or-compressed body bytes that reached the sink, in
order. -/
def bodyBytes (evs : List SinkEvent) : List Nat :=
  evs.foldr (fun e acc => match e with | .write bs => bs ++ acc | _ => acc) []

/-- Model of an external `gzip.Writer` checked out of a pool: the level it
was pooled under and the bytes written into it since its `Reset` onto the
sink. -/
structure GW where
  level : Nat
  written : List Nat
deriving DecidableEq, Repr

/-- Model of the external `compress/gzip` library's wire format, per its
documented contract: a header (the standard magic bytes), the compressed
payload, and enough framing that any standard decompressor recovers the
input exactly.  The compression algorithm itself is not part of this
repository (a stated non-goal of the design), so it is modelled by an
injective framing whose decoder `gunzip` stands for a standard
decompressor. -/
def gzipEncode (level : Nat) (data : List Nat) : List Nat :=
  31 :: 139 :: level :: data.length :: data

/-- Standard-decompressor model, inverse to `gzipEncode`. -/
def gunzip (bs : List Nat) : Option (List Nat) :=
  match bs with
  | 31 :: 139 :: _ :: n :: rest => if rest.length = n then some rest else none
  | _ => none

@[simp] lemma gunzip_gzipEncode (level : Nat) (data : List Nat) :
    gunzip (gzipEncode level data) = some data := by
  simp [gunzip, gzipEncode]

/-- Configuration and environment of one writer: the fields copied from
`config` (`options.go`) plus the capabilities of the surrounding
collaborators — the sink's optional interfaces, `http.DetectContentType`
as an opaque-to-the-writer sniffing function, and the write behaviour of
the pooled gzip writer (how many bytes it accepts and which error it
reports). -/
structure Cfg where
  index : Nat
  minSize : Nat
  contentTypes : List String
  detect : List Nat → String
  gwBeh : List Nat → Nat × Option Err
  sinkFlusher : Bool
  sinkHijacker : Bool
  sinkConn : Nat

/-- The behaviour `io.Writer` documents and `compress/gzip` implements:
accept everything, no error. -/
def realGwWrite : List Nat → Nat × Option Err := fun b => (b.length, none)

/-- `gw.Write(b)` under a given behaviour. -/
def GW.write (beh : List Nat → Nat × Option Err) (g : GW) (b : List Nat) :
    GW × Nat × Option Err :=
  let r := beh b
  ({ g with written := g.written ++ b.take r.1 }, r.1, r.2)

@[simp] lemma GW.write_real (g : GW) (b : List Nat) :
    GW.write realGwWrite g b = ({ g with written := g.written ++ b }, b.length, none) := by
  simp [GW.write, realGwWrite]

/-- Model of Go's `strings.ToLower` (character-wise lower-casing; the
header values relevant here are ASCII, where the two agree). -/
def strToLower (s : String) : String := ⟨s.data.map Char.toLower⟩

/-- `handleContentType` from `gzip.go`: compress all content types when
the configured list is empty, else exactly when the lower-cased current
`Content-Type` value is a member. -/
def handleContentType (cts : List String) (h : Header) : Bool :=
  if cts.isEmpty then true
  else cts.contains (strToLower (h.get contentType))

/-- Go's `append` on a possibly-nil byte slice (`w.buf = append(w.buf, b...)`):
appending nothing to nil stays nil. -/
def appendBuf : Option (List Nat) → List Nat → Option (List Nat)
  | none, b => if b.isEmpty then none else some b
  | some xs, b => some (xs ++ b)

/-- `len(w.buf)` (nil has length 0). -/
def bufLen : Option (List Nat) → Nat
  | none => 0
  | some xs => xs.length

/-- The buffer value after accumulating exactly `l` from a nil start. -/
def optBuf (l : List Nat) : Option (List Nat) :=
  if l = [] then none else some l

@[simp] lemma bufLen_optBuf (l : List Nat) : bufLen (optBuf l) = l.length := by
  by_cases h : l = [] <;> simp [optBuf, bufLen, h]

@[simp] lemma getD_optBuf (l : List Nat) : (optBuf l).getD [] = l := by
  by_cases h : l = [] <;> simp [optBuf, h]

@[simp] lemma appendBuf_optBuf (l b : List Nat) :
    appendBuf (optBuf l) b = optBuf (l ++ b) := by
  by_cases hl : l = []
  · by_cases hb : b = [] <;> simp [optBuf, appendBuf, hl, hb]
  · simp [optBuf, appendBuf, hl]

@[simp] lemma bufLen_appendBuf (o : Option (List Nat)) (b : List Nat) :
    bufLen (appendBuf o b) = bufLen o + b.length := by
  cases o with
  | none =>
    by_cases hb : b = [] <;> simp [appendBuf, bufLen, hb]
  | some xs => simp [appendBuf, bufLen]

@[simp] lemma getD_appendBuf (o : Option (List Nat)) (b : List Nat) :
    (appendBuf o b).getD [] = o.getD [] ++ b := by
  cases o with
  | none => by_cases hb : b = [] <;> simp [appendBuf, hb]
  | some xs => simp [appendBuf]

lemma appendBuf_assoc (o : Option (List Nat)) (a b : List Nat) :
    appendBuf (appendBuf o a) b = appendBuf o (a ++ b) := by
  cases o with
  | none =>
    by_cases ha : a = []
    · by_cases hb : b = [] <;> simp [appendBuf, ha, hb]
    · have : a ++ b ≠ [] := by simp [ha]
      simp [appendBuf, ha, this]
  | some xs => simp [appendBuf]

/-- Sum of chunk lengths / concatenation of a chunk list. -/
def concatAll : List (List Nat) → List Nat
  | [] => []
  | b :: bs => b ++ concatAll bs

@[simp] lemma concatAll_nil : concatAll [] = [] := rfl

@[simp] lemma concatAll_cons (b : List Nat) (bs : List (List Nat)) :
    concatAll (b :: bs) = b ++ concatAll bs := rfl

/-- State of the primary `GzipResponseWriter` (`gzip_responsewriter.go`):
the response headers, the trace of events already emitted to the wrapped
sink, the checked-out gzip writer (`nil` while undecided), the saved
status code (`0` = unset), the accumulation buffer, and a count of
pool releases for resource accounting. -/
structure GzipResponseWriter where
  header : Header
  events : List SinkEvent
  gw : Option GW
  code : Nat
  buf : Option (List Nat)
  poolPuts : Nat
deriving DecidableEq, Repr

/-- A freshly constructed writer, as built in `gzip_handler.go` around a
sink whose headers are `h`. -/
def freshWriter (h : Header) : GzipResponseWriter :=
  { header := h, events := [], gw := none, code := 0, buf := none, poolPuts := 0 }

/-- Lines 40–43 of `gzip_responsewriter.go`: sniff the content type from
the chunk if none is set. -/
def GzipResponseWriter.sniff (cfg : Cfg) (st : GzipResponseWriter) (b : List Nat) :
    GzipResponseWriter :=
  if st.header.has contentType then st
  else { st with header := st.header.set contentType (cfg.detect b) }

/-- `startGzip` (`gzip_responsewriter.go` lines 69–99): set the encoding
header, drop any content length, emit a pending status line, check a
fresh pooled gzip writer out (bound to the sink), flush the whole buffer
into it, and fail on a silent short write. -/
def GzipResponseWriter.startGzip (cfg : Cfg) (st : GzipResponseWriter) :
    GzipResponseWriter × Option Err :=
  let st := { st with header := (st.header.set contentEncoding "gzip").del contentLength }
  let st := if st.code ≠ 0 then
    { st with events := st.events ++ [SinkEvent.writeHeader st.code] } else st
  let g0 : GW := { level := cfg.index, written := [] }
  let r := GW.write cfg.gwBeh g0 (st.buf.getD [])
  let st := { st with gw := some r.1 }
  if r.2.2 = none ∧ r.2.1 < (st.buf.getD []).length then (st, some Err.shortWrite)
  else ({ st with buf := none }, r.2.2)

/-- `Write` (`gzip_responsewriter.go` lines 38–66). -/
def GzipResponseWriter.Write (cfg : Cfg) (st : GzipResponseWriter) (b : List Nat) :
    GzipResponseWriter × Nat × Option Err :=
  let st := st.sniff cfg b
  match st.gw with
  | some g =>
    let p := GW.write cfg.gwBeh g b
    ({ st with gw := some p.1 }, p.2.1, p.2.2)
  | none =>
    let st := { st with buf := appendBuf st.buf b }
    if bufLen st.buf ≥ cfg.minSize ∧ handleContentType cfg.contentTypes st.header = true
        ∧ st.header.get contentEncoding = "" then
      match (st.startGzip cfg).2, (st.startGzip cfg).1 with
      | some e, st' => (st', 0, some e)
      | none, st' => (st', b.length, none)
    else (st, b.length, none)

/-- `WriteHeader` (`gzip_responsewriter.go` lines 102–106): first call
wins. -/
def GzipResponseWriter.WriteHeader (st : GzipResponseWriter) (c : Nat) :
    GzipResponseWriter :=
  if st.code = 0 then { st with code := c } else st

/-- `Close` (`gzip_responsewriter.go` lines 119–139).  The modelled sink
records writes and cannot fail, so the wrapped write error of line 129
does not arise. -/
def GzipResponseWriter.Close (st : GzipResponseWriter) :
    GzipResponseWriter × Option Err :=
  match st.gw with
  | none =>
    let st := if st.code ≠ 0 then
      { st with events := st.events ++ [SinkEvent.writeHeader st.code] } else st
    match st.buf with
    | some bs => ({ st with events := st.events ++ [SinkEvent.write bs] }, none)
    | none => (st, none)
  | some g =>
    ({ st with events := st.events ++ [SinkEvent.write (gzipEncode g.level g.written)],
               gw := none, poolPuts := st.poolPuts + 1 }, none)

/-- `Flush` (`gzip_responsewriter.go` lines 144–158): a no-op until
`startGzip` has run; afterwards flush the gzip writer (whose wire output
this model accounts at close) and the sink when it is a flusher. -/
def GzipResponseWriter.Flush (cfg : Cfg) (st : GzipResponseWriter) :
    GzipResponseWriter :=
  match st.gw with
  | none => st
  | some _ =>
    if cfg.sinkFlusher then { st with events := st.events ++ [SinkEvent.flush] } else st

/-- Result of a hijack attempt.  A Go type assertion without the `ok`
form that fails does not return — it unwinds the goroutine; that outcome
is `panicked`, distinct from returning the descriptive error of
`gzip_responsewriter.go` line 166. -/
inductive HijackRes
  | conn (c : Nat)
  | errUnsupported
  | panicked
deriving DecidableEq, Repr

/-- `Hijack` (`gzip_responsewriter.go` lines 162–167): checked assertion,
descriptive error when the sink is not a hijacker. -/
def GzipResponseWriter.Hijack (cfg : Cfg) : HijackRes :=
  if cfg.sinkHijacker then HijackRes.conn cfg.sinkConn else HijackRes.errUnsupported

/-- `h1.Hijack` (`gzip_proto_responsewriter.go` lines 12–14): unchecked
type assertion — a sink without the capability makes it panic. -/
def h1Hijack (cfg : Cfg) : HijackRes :=
  if cfg.sinkHijacker then HijackRes.conn cfg.sinkConn else HijackRes.panicked

/-- `h1.ReadFrom` (`gzip_proto_responsewriter.go` lines 16–18):
`io.Copy(w.GzipResponseWriter, reader)` — read chunks and push each one
through the compressing writer's `Write`, stopping on an error or a short
write, returning the byte count copied. -/
def h1ReadFrom (cfg : Cfg) : GzipResponseWriter → List (List Nat) →
    GzipResponseWriter × Nat × Option Err
  | st, [] => (st, 0, none)
  | st, c :: cs =>
    let p := GzipResponseWriter.Write cfg st c
    match p.2.2 with
    | some e => (p.1, p.2.1, some e)
    | none =>
      if p.2.1 < c.length then (p.1, p.2.1, some Err.shortWrite)
      else
        let q := h1ReadFrom cfg p.1 cs
        (q.1, p.2.1 + q.2.1, q.2.2)

/-- Iterated `Write` (the body of a handler that writes `bs` in order). -/
def writeAll (cfg : Cfg) (st : GzipResponseWriter) (bs : List (List Nat)) :
    GzipResponseWriter :=
  bs.foldl (fun s b => (GzipResponseWriter.Write cfg s b).1) st

/-- Configuration used by the wrap-time entry points: pool index for the
level, the size threshold and content-type list from the options, the
ambient sniffing function, and a well-behaved gzip library. -/
def mkCfg (idx m : Nat) (cts : List String) (detect : List Nat → String) : Cfg :=
  { index := idx, minSize := m, contentTypes := cts, detect := detect,
    gwBeh := realGwWrite, sinkFlusher := true, sinkHijacker := false, sinkConn := 0 }

/-- The decision test of `Write` line 58, evaluated on the post-sniff
header and post-append buffer. -/
def goGzip (cfg : Cfg) (st : GzipResponseWriter) (b : List Nat) : Prop :=
  bufLen (appendBuf st.buf b) ≥ cfg.minSize
    ∧ handleContentType cfg.contentTypes (st.sniff cfg b).header = true
    ∧ (st.sniff cfg b).header.get contentEncoding = ""

instance (cfg : Cfg) (st : GzipResponseWriter) (b : List Nat) :
    Decidable (goGzip cfg st b) := by unfold goGzip; infer_instance

/-- The situations in which the content-type filter is sure to pass and
to keep passing: an empty allow-list, or a `Content-Type` already set to
an allowed value (so sniffing cannot change it). -/
def HCT (cts : List String) (h : Header) : Prop :=
  cts = [] ∨ (h.has contentType = true ∧ cts.contains (strToLower (h.get contentType)) = true)

/-- State of the alternative `GzipResponseWriter` implementation carried
alongside `gzip.go`: it adds the `headerWritten` guard and the one-way
`gzipResponse` decision flag. -/
structure GzipResponseWriterAlt where
  header : Header
  events : List SinkEvent
  gw : Option GW
  code : Nat
  headerWritten : Bool
  buf : Option (List Nat)
  gzipResponse : Bool
  poolPuts : Nat
deriving DecidableEq, Repr

def freshWriterAlt (h : Header) : GzipResponseWriterAlt :=
  { header := h, events := [], gw := none, code := 0, headerWritten := false,
    buf := none, gzipResponse := false, poolPuts := 0 }

/-- Content-type sniffing on first write, alternative implementation
(same lines as the primary one). -/
def GzipResponseWriterAlt.sniff (cfg : Cfg) (st : GzipResponseWriterAlt) (b : List Nat) :
    GzipResponseWriterAlt :=
  if st.header.has contentType then st
  else { st with header := st.header.set contentType (cfg.detect b) }

/-- `WriteHeader`, alternative implementation: ignored once a code is
recorded or the status line already went out. -/
def GzipResponseWriterAlt.WriteHeader (st : GzipResponseWriterAlt) (c : Nat) :
    GzipResponseWriterAlt :=
  if st.code ≠ 0 ∨ st.headerWritten = true then st else { st with code := c }

/-- `writeHeader` (lower case), alternative implementation: emit the
saved status line at most once, and only if one was recorded. -/
def GzipResponseWriterAlt.emitHeader (st : GzipResponseWriterAlt) :
    GzipResponseWriterAlt :=
  if st.headerWritten then st
  else if st.code = 0 then st
  else { st with headerWritten := true,
                 events := st.events ++ [SinkEvent.writeHeader st.code] }

/-- `startGzip`, alternative implementation: explicitly idempotent, then
as in the primary implementation but with the guarded status-line
emission. -/
def GzipResponseWriterAlt.startGzip (cfg : Cfg) (st : GzipResponseWriterAlt) :
    GzipResponseWriterAlt × Option Err :=
  if st.gw.isSome then (st, none)
  else
    let st := { st with header := (st.header.set contentEncoding "gzip").del contentLength }
    let st := st.emitHeader
    let g0 : GW := { level := cfg.index, written := [] }
    let r := GW.write cfg.gwBeh g0 (st.buf.getD [])
    let st := { st with gw := some r.1 }
    if r.2.2 = none ∧ r.2.1 < (st.buf.getD []).length then (st, some Err.shortWrite)
    else ({ st with buf := none }, r.2.2)

/-- `Write`, alternative implementation: the threshold check sets the
one-way `gzipResponse` flag, and the flag (however it became true)
triggers `startGzip`.  The first buffering write materialises the buffer
even when empty (`make([]byte, 0, minSize)`). -/
def GzipResponseWriterAlt.Write (cfg : Cfg) (st : GzipResponseWriterAlt) (b : List Nat) :
    GzipResponseWriterAlt × Nat × Option Err :=
  let st := st.sniff cfg b
  match st.gw with
  | some g =>
    let p := GW.write cfg.gwBeh g b
    ({ st with gw := some p.1 }, p.2.1, p.2.2)
  | none =>
    let st := { st with buf := some (st.buf.getD [] ++ b) }
    let st := if bufLen st.buf ≥ cfg.minSize
        ∧ handleContentType cfg.contentTypes st.header = true
        ∧ st.header.get contentEncoding = "" then { st with gzipResponse := true } else st
    if st.gzipResponse = true then
      match (st.startGzip cfg).2, (st.startGzip cfg).1 with
      | some e, st' => (st', 0, some e)
      | none, st' => (st', b.length, none)
    else (st, b.length, none)

/-- `Close`, alternative implementation (`gzip.go` concatenation, lines
195–224): emit the pending status line through the guard, then either
write the raw buffer out or close the gzip writer and return it to the
pool. -/
def GzipResponseWriterAlt.Close (st : GzipResponseWriterAlt) :
    GzipResponseWriterAlt × Option Err :=
  let st := st.emitHeader
  match st.gw with
  | none =>
    match st.buf with
    | some bs => ({ st with events := st.events ++ [SinkEvent.write bs] }, none)
    | none => (st, none)
  | some g =>
    ({ st with events := st.events ++ [SinkEvent.write (gzipEncode g.level g.written)],
               gw := none, poolPuts := st.poolPuts + 1 }, none)

/-- `flushEarly` (`gzip.go` concatenation, lines 245–258): on a flush
before the decision, force the decision only when an encoding header is
already present and the content type is allowed, then emit the pending
status line and flush the sink. -/
def GzipResponseWriterAlt.flushEarly (cfg : Cfg) (st : GzipResponseWriterAlt) :
    GzipResponseWriterAlt :=
  let st := if st.header.get contentEncoding = "gzip"
      ∧ handleContentType cfg.contentTypes st.header = true then
      { st with header := st.header.del contentLength, gzipResponse := true } else st
  let st := st.emitHeader
  { st with events := st.events ++ [SinkEvent.flush] }

/-- `Flush`, alternative implementation (`gzip.go` concatenation, lines
229–243). -/
def GzipResponseWriterAlt.Flush (cfg : Cfg) (st : GzipResponseWriterAlt) :
    GzipResponseWriterAlt :=
  match st.gw with
  | some _ =>
    if cfg.sinkFlusher then { st with events := st.events ++ [SinkEvent.flush] } else st
  | none =>
    if cfg.sinkFlusher then st.flushEarly cfg else st

/-- The operations a handler can perform on the alternative writer. -/
inductive OpB
  | write (b : List Nat)
  | setCode (c : Nat)
  | flush
  | close

def GzipResponseWriterAlt.step (cfg : Cfg) (st : GzipResponseWriterAlt) (op : OpB) :
    GzipResponseWriterAlt :=
  match op with
  | OpB.write b => (st.Write cfg b).1
  | OpB.setCode c => st.WriteHeader c
  | OpB.flush => st.Flush cfg
  | OpB.close => (st.Close).1

/-- Run a handler's operation sequence against a fresh alternative
writer. -/
def runAlt (cfg : Cfg) (h : Header) (ops : List OpB) : GzipResponseWriterAlt :=
  ops.foldl (GzipResponseWriterAlt.step cfg) (freshWriterAlt h)

section StepLemmasA

variable (cfg : Cfg) (st : GzipResponseWriter) (b : List Nat)

@[simp] lemma sniff_gw : (st.sniff cfg b).gw = st.gw := by
  unfold GzipResponseWriter.sniff; split <;> rfl

@[simp] lemma sniff_buf : (st.sniff cfg b).buf = st.buf := by
  unfold GzipResponseWriter.sniff; split <;> rfl

@[simp] lemma sniff_events : (st.sniff cfg b).events = st.events := by
  unfold GzipResponseWriter.sniff; split <;> rfl

@[simp] lemma sniff_code : (st.sniff cfg b).code = st.code := by
  unfold GzipResponseWriter.sniff; split <;> rfl

@[simp] lemma sniff_poolPuts : (st.sniff cfg b).poolPuts = st.poolPuts := by
  unfold GzipResponseWriter.sniff; split <;> rfl

@[simp] lemma sniff_get_ce :
    (st.sniff cfg b).header.get contentEncoding = st.header.get contentEncoding := by
  unfold GzipResponseWriter.sniff; split
  · rfl
  · exact st.header.get_set_ne contentType contentEncoding _ (by decide)

lemma sniff_of_has (h : st.header.has contentType = true) : st.sniff cfg b = st := by
  unfold GzipResponseWriter.sniff; simp [h]

@[simp] lemma sniff_has_ct : (st.sniff cfg b).header.has contentType = true := by
  unfold GzipResponseWriter.sniff; split
  · assumption
  · simp

lemma Write_stream (g : GW) (hgw : st.gw = some g) :
    st.Write cfg b =
      ({ header := (st.sniff cfg b).header, events := st.events,
         gw := some { level := g.level, written := g.written ++ b.take (cfg.gwBeh b).1 },
         code := st.code, buf := st.buf, poolPuts := st.poolPuts },
        (cfg.gwBeh b).1, (cfg.gwBeh b).2) := by
  simp [GzipResponseWriter.Write, hgw, GW.write]

lemma Write_buffering (hgw : st.gw = none) (hng : ¬ goGzip cfg st b) :
    st.Write cfg b =
      ({ header := (st.sniff cfg b).header, events := st.events, gw := none,
         code := st.code, buf := appendBuf st.buf b, poolPuts := st.poolPuts },
        b.length, none) := by
  have hC : ¬(cfg.minSize ≤ bufLen st.buf + b.length ∧
      handleContentType cfg.contentTypes (st.sniff cfg b).header = true ∧
      st.header.get contentEncoding = "") := by
    intro h
    exact hng ⟨by simpa using h.1, h.2.1, by simpa using h.2.2⟩
  simp [GzipResponseWriter.Write, hgw, hC]

lemma startGzip_fields (hbeh : cfg.gwBeh = realGwWrite) :
    st.startGzip cfg =
      ({ header := (st.header.set contentEncoding "gzip").del contentLength,
         events := st.events ++ (if st.code ≠ 0 then [SinkEvent.writeHeader st.code] else []),
         gw := some { level := cfg.index, written := st.buf.getD [] },
         code := st.code, buf := none, poolPuts := st.poolPuts }, none) := by
  unfold GzipResponseWriter.startGzip
  rw [hbeh]
  split <;> simp_all

lemma Write_transition (hgw : st.gw = none) (hg : goGzip cfg st b)
    (hbeh : cfg.gwBeh = realGwWrite) :
    st.Write cfg b =
      ({ header := ((st.sniff cfg b).header.set contentEncoding "gzip").del contentLength,
         events := st.events ++ (if st.code ≠ 0 then [SinkEvent.writeHeader st.code] else []),
         gw := some { level := cfg.index, written := appendBuf st.buf b |>.getD [] },
         code := st.code, buf := none, poolPuts := st.poolPuts }, b.length, none) := by
  have hC : (cfg.minSize ≤ bufLen st.buf + b.length ∧
      handleContentType cfg.contentTypes (st.sniff cfg b).header = true ∧
      st.header.get contentEncoding = "") := by
    obtain ⟨h1, h2, h3⟩ := hg
    exact ⟨by simpa using h1, h2, by simpa using h3⟩
  simp [GzipResponseWriter.Write, GzipResponseWriter.startGzip, hgw, hbeh, hC,
    GW.write, realGwWrite, apply_ite]

end StepLemmasA

@[simp] lemma appendBuf_nil (o : Option (List Nat)) : appendBuf o [] = o := by
  cases o <;> simp [appendBuf]

@[simp] lemma writeAll_nil (cfg : Cfg) (st : GzipResponseWriter) :
    writeAll cfg st [] = st := rfl

@[simp] lemma writeAll_cons (cfg : Cfg) (st : GzipResponseWriter) (b : List Nat)
    (bs : List (List Nat)) :
    writeAll cfg st (b :: bs) = writeAll cfg (st.Write cfg b).1 bs := rfl

lemma handle_of_HCT {cts : List String} {h : Header} (hh : HCT cts h) :
    handleContentType cts h = true := by
  rcases hh with h0 | ⟨_, hmem⟩
  · simp [handleContentType, h0]
  · by_cases h0 : cts = []
    · simp [handleContentType, h0]
    · have hemp : cts.isEmpty = false := by simp [List.isEmpty_iff, h0]
      simp [handleContentType, hemp]
      exact List.elem_iff.mp hmem

lemma HCT_sniff (cfg : Cfg) (st : GzipResponseWriter) (b : List Nat)
    (hh : HCT cfg.contentTypes st.header) : HCT cfg.contentTypes (st.sniff cfg b).header := by
  rcases hh with h0 | ⟨hhas, hmem⟩
  · exact Or.inl h0
  · rw [sniff_of_has cfg st b hhas]
    exact Or.inr ⟨hhas, hmem⟩

/-- While the threshold stays out of reach, every write only grows the
buffer: no sink traffic, no gzip writer, headers apart from a sniffed
content type untouched. -/
lemma writeAll_below (cfg : Cfg) :
    ∀ (bs : List (List Nat)) (st : GzipResponseWriter),
    st.gw = none → bufLen st.buf + (concatAll bs).length < cfg.minSize →
    (writeAll cfg st bs).gw = none ∧
    (writeAll cfg st bs).events = st.events ∧
    (writeAll cfg st bs).buf = appendBuf st.buf (concatAll bs) ∧
    (writeAll cfg st bs).code = st.code ∧
    (writeAll cfg st bs).poolPuts = st.poolPuts ∧
    (writeAll cfg st bs).header.get contentEncoding = st.header.get contentEncoding := by
  intro bs
  induction bs with
  | nil => intro st h1 _; simp [h1]
  | cons b rest ih =>
    intro st h1 h2
    simp only [concatAll_cons, List.length_append] at h2
    have hng : ¬ goGzip cfg st b := by
      intro hg
      have := hg.1
      simp only [bufLen_appendBuf] at this
      omega
    rw [writeAll_cons, Write_buffering cfg st b h1 hng]
    have hrec := ih
      { header := (st.sniff cfg b).header, events := st.events, gw := none,
        code := st.code, buf := appendBuf st.buf b, poolPuts := st.poolPuts }
      rfl (by simp only [bufLen_appendBuf]; omega)
    simp only [sniff_get_ce] at hrec
    obtain ⟨r1, r2, r3, r4, r5, r6⟩ := hrec
    refine ⟨r1, r2, ?_, r4, r5, r6⟩
    rw [r3]
    simp [appendBuf_assoc]

/-- Once the gzip writer is active, every write is forwarded into it, in
order, and nothing else changes. -/
lemma writeAll_stream (cfg : Cfg) (hbeh : cfg.gwBeh = realGwWrite) :
    ∀ (bs : List (List Nat)) (st : GzipResponseWriter) (g : GW),
    st.gw = some g →
    (writeAll cfg st bs).gw = some { level := g.level, written := g.written ++ concatAll bs } ∧
    (writeAll cfg st bs).events = st.events ∧
    (writeAll cfg st bs).buf = st.buf ∧
    (writeAll cfg st bs).code = st.code ∧
    (writeAll cfg st bs).poolPuts = st.poolPuts := by
  intro bs
  induction bs with
  | nil => intro st g h1; simp [h1]
  | cons b rest ih =>
    intro st g h1
    rw [writeAll_cons, Write_stream cfg st b g h1]
    have hrec := ih
      { header := (st.sniff cfg b).header, events := st.events,
        gw := some { level := g.level, written := g.written ++ b.take (cfg.gwBeh b).1 },
        code := st.code, buf := st.buf, poolPuts := st.poolPuts }
      { level := g.level, written := g.written ++ b.take (cfg.gwBeh b).1 } rfl
    obtain ⟨r1, r2, r3, r4, r5⟩ := hrec
    refine ⟨?_, r2, r3, r4, r5⟩
    rw [r1]
    simp [hbeh, realGwWrite, List.append_assoc]

/-- A nonempty write sequence whose total reaches the threshold, against
a buffering writer whose content type is and stays allowed and with no
encoding header present, ends up streaming: the pending status line goes
out at the transition, the whole backlog and every later write are inside
the gzip writer, in order, and the buffer is gone. -/
lemma writeAll_reach (cfg : Cfg) (hbeh : cfg.gwBeh = realGwWrite) :
    ∀ (bs : List (List Nat)) (st : GzipResponseWriter),
    st.gw = none → HCT cfg.contentTypes st.header →
    st.header.get contentEncoding = "" → bs ≠ [] →
    cfg.minSize ≤ bufLen st.buf + (concatAll bs).length →
    (writeAll cfg st bs).gw =
      some { level := cfg.index, written := st.buf.getD [] ++ concatAll bs } ∧
    (writeAll cfg st bs).events =
      st.events ++ (if st.code ≠ 0 then [SinkEvent.writeHeader st.code] else []) ∧
    (writeAll cfg st bs).buf = none ∧
    (writeAll cfg st bs).code = st.code ∧
    (writeAll cfg st bs).poolPuts = st.poolPuts := by
  intro bs
  induction bs with
  | nil => intro st _ _ _ hne _; exact absurd rfl hne
  | cons b rest ih =>
    intro st h1 h2 h3 _ h5
    by_cases hgo : goGzip cfg st b
    · rw [writeAll_cons, Write_transition cfg st b h1 hgo hbeh]
      have hrec := writeAll_stream cfg hbeh rest
        { header := ((st.sniff cfg b).header.set contentEncoding "gzip").del contentLength,
          events := st.events ++ (if st.code ≠ 0 then [SinkEvent.writeHeader st.code] else []),
          gw := some { level := cfg.index, written := appendBuf st.buf b |>.getD [] },
          code := st.code, buf := none, poolPuts := st.poolPuts }
        { level := cfg.index, written := appendBuf st.buf b |>.getD [] } rfl
      obtain ⟨r1, r2, r3, r4, r5⟩ := hrec
      refine ⟨?_, r2, r3, r4, r5⟩
      rw [r1]
      simp [List.append_assoc]
    · cases rest with
      | nil =>
        exfalso
        apply hgo
        refine ⟨?_, handle_of_HCT (HCT_sniff cfg st b h2), by simpa using h3⟩
        simp only [concatAll_cons, concatAll_nil, List.append_nil] at h5
        simp; omega
      | cons c cs =>
        rw [writeAll_cons, Write_buffering cfg st b h1 hgo]
        have hrec := ih
          { header := (st.sniff cfg b).header, events := st.events, gw := none,
            code := st.code, buf := appendBuf st.buf b, poolPuts := st.poolPuts }
          rfl (HCT_sniff cfg st b h2) (by simpa using h3)
          (by simp) (by simp only [bufLen_appendBuf]
                        simp only [concatAll_cons, List.length_append] at h5 ⊢
                        omega)
        obtain ⟨r1, r2, r3, r4, r5⟩ := hrec
        refine ⟨?_, r2, r3, r4, r5⟩
        rw [r1]
        simp [List.append_assoc]

/-- With a pre-set content type that the (nonempty) filter rejects, no
write sequence ever starts compression and nothing reaches the sink. -/
lemma writeAll_blocked (cfg : Cfg) :
    ∀ (bs : List (List Nat)) (st : GzipResponseWriter),
    st.gw = none → st.header.has contentType = true →
    handleContentType cfg.contentTypes st.header = false →
    (writeAll cfg st bs).gw = none ∧
    (writeAll cfg st bs).events = st.events ∧
    (writeAll cfg st bs).buf = appendBuf st.buf (concatAll bs) ∧
    (writeAll cfg st bs).code = st.code ∧
    (writeAll cfg st bs).poolPuts = st.poolPuts ∧
    (writeAll cfg st bs).header = st.header := by
  intro bs
  induction bs with
  | nil => intro st h1 _ _; simp [h1]
  | cons b rest ih =>
    intro st h1 hhas hblock
    have hng : ¬ goGzip cfg st b := by
      intro hg
      have := hg.2.1
      rw [sniff_of_has cfg st b hhas, hblock] at this
      exact Bool.false_ne_true this
    rw [writeAll_cons, Write_buffering cfg st b h1 hng, sniff_of_has cfg st b hhas]
    have hrec := ih
      { header := st.header, events := st.events, gw := none,
        code := st.code, buf := appendBuf st.buf b, poolPuts := st.poolPuts }
      rfl hhas hblock
    obtain ⟨r1, r2, r3, r4, r5, r6⟩ := hrec
    refine ⟨r1, r2, ?_, r4, r5, r6⟩
    rw [r3]
    simp [appendBuf_assoc]

@[simp] lemma bodyBytes_nil : bodyBytes [] = [] := rfl

@[simp] lemma bodyBytes_cons_write (bs : List Nat) (evs : List SinkEvent) :
    bodyBytes (SinkEvent.write bs :: evs) = bs ++ bodyBytes evs := rfl

@[simp] lemma bodyBytes_cons_writeHeader (c : Nat) (evs : List SinkEvent) :
    bodyBytes (SinkEvent.writeHeader c :: evs) = bodyBytes evs := rfl

@[simp] lemma bodyBytes_cons_flush (evs : List SinkEvent) :
    bodyBytes (SinkEvent.flush :: evs) = bodyBytes evs := rfl

@[simp] lemma bodyBytes_append (a c : List SinkEvent) :
    bodyBytes (a ++ c) = bodyBytes a ++ bodyBytes c := by
  induction a with
  | nil => simp
  | cons e t ih => cases e <;> simp [ih]

/-- `Close` on a writer whose gzip writer is active: emit the compressed
stream, return the instance to the pool, drop the reference. -/
lemma Close_stream (st : GzipResponseWriter) (g : GW) (hgw : st.gw = some g) :
    (st.Close).1.events = st.events ++ [SinkEvent.write (gzipEncode g.level g.written)] ∧
    (st.Close).1.gw = none ∧
    (st.Close).1.poolPuts = st.poolPuts + 1 ∧
    (st.Close).1.header = st.header ∧
    (st.Close).1.buf = st.buf ∧
    (st.Close).1.code = st.code ∧
    (st.Close).2 = none := by
  simp [GzipResponseWriter.Close, hgw]

/-- `Close` on a still-buffering writer: emit the pending status line (if
any) and the raw buffer (if any); the buffer reference is not cleared. -/
lemma Close_buffered (st : GzipResponseWriter) (hgw : st.gw = none) :
    (st.Close).1.events = st.events
      ++ (if st.code ≠ 0 then [SinkEvent.writeHeader st.code] else [])
      ++ (match st.buf with | some bs => [SinkEvent.write bs] | none => []) ∧
    (st.Close).1.gw = none ∧
    (st.Close).1.poolPuts = st.poolPuts ∧
    (st.Close).1.header = st.header ∧
    (st.Close).1.buf = st.buf ∧
    (st.Close).2 = none := by
  rcases hbuf : st.buf with _ | bs <;> by_cases hc : st.code = 0 <;>
    simp [GzipResponseWriter.Close, hgw, hbuf, hc]

/-- With a well-behaved gzip library the primary writer's `Write` reports
full acceptance and no error. -/
lemma Write_real_result (cfg : Cfg) (hbeh : cfg.gwBeh = realGwWrite)
    (st : GzipResponseWriter) (b : List Nat) :
    (st.Write cfg b).2 = (b.length, none) := by
  rcases hgw : st.gw with _ | g
  · by_cases hgo : goGzip cfg st b
    · rw [Write_transition cfg st b hgw hgo hbeh]
    · rw [Write_buffering cfg st b hgw hgo]
  · rw [Write_stream cfg st b g hgw, hbeh]
    rfl

lemma get_ce_after_start (h : Header) :
    ((h.set contentEncoding "gzip").del contentLength).get contentEncoding = "gzip" := by
  rw [Header.get_del_ne _ _ _ (by decide)]
  simp

/-- C1: for every response whose total written body length reaches the
minimum-size threshold, issued with a content type in the allow-list (or
an empty allow-list) and no pre-set encoding header, the bytes emitted to
the underlying sink form a single gzip stream that a standard
decompressor turns back into exactly the concatenation of the bytes
passed to `Write`, in order. -/
theorem C1_threshold_reached_gzip_roundtrip
    (idx m : Nat) (cts : List String) (detect : List Nat → String) (h0 : Header)
    (bs : List (List Nat))
    (hce : h0.get contentEncoding = "") (hct : HCT cts h0)
    (hne : bs ≠ []) (hlen : m ≤ (concatAll bs).length) :
    (((writeAll (mkCfg idx m cts detect) (freshWriter h0) bs).Close).1.events
        = [SinkEvent.write (gzipEncode idx (concatAll bs))]) ∧
    gunzip (bodyBytes ((writeAll (mkCfg idx m cts detect) (freshWriter h0) bs).Close).1.events)
        = some (concatAll bs) := by
  have hreach := writeAll_reach (mkCfg idx m cts detect) rfl bs (freshWriter h0)
    rfl hct hce hne (by simpa [mkCfg, freshWriter, bufLen] using hlen)
  obtain ⟨r1, r2, r3, r4, r5⟩ := hreach
  have hclose := Close_stream (writeAll (mkCfg idx m cts detect) (freshWriter h0) bs)
    { level := idx, written := concatAll bs } (by simpa [freshWriter, mkCfg] using r1)
  obtain ⟨c1, _⟩ := hclose
  rw [c1, r2]
  simp [freshWriter]

/-- Witness for C1 at a concrete run: three bytes with threshold two and
an empty allow-list come out as one gzip stream decoding to the input. -/
theorem C1_witness :
    Header.empty.get contentEncoding = "" ∧ HCT [] Header.empty ∧
    ([[1, 2, 3]] : List (List Nat)) ≠ [] ∧ 2 ≤ (concatAll [[1, 2, 3]]).length ∧
    ((((writeAll (mkCfg 3 2 [] (fun _ => "text/plain")) (freshWriter Header.empty)
          [[1, 2, 3]]).Close).1.events
        = [SinkEvent.write (gzipEncode 3 (concatAll [[1, 2, 3]]))]) ∧
      gunzip (bodyBytes ((writeAll (mkCfg 3 2 [] (fun _ => "text/plain"))
          (freshWriter Header.empty) [[1, 2, 3]]).Close).1.events)
        = some (concatAll [[1, 2, 3]])) :=
  ⟨rfl, Or.inl rfl, by decide, by decide,
    C1_threshold_reached_gzip_roundtrip 3 2 [] (fun _ => "text/plain") Header.empty
      [[1, 2, 3]] rfl (Or.inl rfl) (by decide) (by decide)⟩

/-- C2: for every response whose total written body length stays strictly
below the configured minimum size, the bytes emitted to the underlying
sink after close are byte-identical to the bytes passed to `Write`, and
no `Content-Encoding` header is set. -/
theorem C2_below_threshold_identity
    (idx m : Nat) (cts : List String) (detect : List Nat → String) (h0 : Header)
    (bs : List (List Nat))
    (hce : h0.get contentEncoding = "") (hlen : (concatAll bs).length < m) :
    bodyBytes (((writeAll (mkCfg idx m cts detect) (freshWriter h0) bs).Close).1.events)
        = concatAll bs ∧
    (((writeAll (mkCfg idx m cts detect) (freshWriter h0) bs).Close).1.header.get
        contentEncoding) = "" := by
  have hbelow := writeAll_below (mkCfg idx m cts detect) bs (freshWriter h0)
    rfl (by simpa [mkCfg, freshWriter, bufLen] using hlen)
  obtain ⟨r1, r2, r3, r4, r5, r6⟩ := hbelow
  have hclose := Close_buffered (writeAll (mkCfg idx m cts detect) (freshWriter h0) bs) r1
  obtain ⟨c1, _, _, c4, _, _⟩ := hclose
  constructor
  · rw [c1, r2, r3, r4]
    simp only [freshWriter]
    rcases hc : concatAll bs with _ | ⟨x, xs⟩ <;> simp [appendBuf, hc]
  · rw [c4, r6]
    simpa [freshWriter] using hce

/-- Witness for C2: 3 bytes against a threshold of 512 come out raw with
no encoding header. -/
theorem C2_witness :
    Header.empty.get contentEncoding = "" ∧ (concatAll [[9, 9, 9]]).length < 512 ∧
    (bodyBytes (((writeAll (mkCfg 0 512 [] (fun _ => "text/plain"))
          (freshWriter Header.empty) [[9, 9, 9]]).Close).1.events)
        = concatAll [[9, 9, 9]] ∧
      (((writeAll (mkCfg 0 512 [] (fun _ => "text/plain")) (freshWriter Header.empty)
          [[9, 9, 9]]).Close).1.header.get contentEncoding) = "") :=
  ⟨rfl, by decide,
    C2_below_threshold_identity 0 512 [] (fun _ => "text/plain") Header.empty
      [[9, 9, 9]] rfl (by decide)⟩

/-- C3: a buffering-state write that takes the accumulated buffer to the
threshold, with the content type allowed and no encoding header present,
switches to streaming: `Content-Encoding: gzip` is set, any
`Content-Length` is deleted, the pending status line (if any) goes out, a
compressor for the configured level is acquired holding the whole
accumulated buffer, the buffer is cleared, and the write reports full
success. -/
theorem C3_transition_to_streaming
    (cfg : Cfg) (st : GzipResponseWriter) (b : List Nat)
    (hbeh : cfg.gwBeh = realGwWrite) (hgw : st.gw = none)
    (hlen : cfg.minSize ≤ bufLen (appendBuf st.buf b))
    (hallow : handleContentType cfg.contentTypes (st.sniff cfg b).header = true)
    (hnoce : (st.sniff cfg b).header.get contentEncoding = "") :
    (st.Write cfg b).1.header.get contentEncoding = "gzip" ∧
    (st.Write cfg b).1.header.has contentLength = false ∧
    (st.Write cfg b).1.events
        = st.events ++ (if st.code ≠ 0 then [SinkEvent.writeHeader st.code] else []) ∧
    (st.Write cfg b).1.gw
        = some { level := cfg.index, written := (appendBuf st.buf b).getD [] } ∧
    (st.Write cfg b).1.buf = none ∧
    (st.Write cfg b).2 = (b.length, none) := by
  rw [Write_transition cfg st b hgw ⟨hlen, hallow, hnoce⟩ hbeh]
  exact ⟨get_ce_after_start _, Header.has_del_self _ _, rfl, rfl, rfl, rfl⟩

/-- Witness for C3: a 2-byte write against threshold 2 from a fresh
buffering writer with a recorded 200 status. -/
theorem C3_witness :
    ((mkCfg 1 2 [] (fun _ => "text/plain")).gwBeh = realGwWrite) ∧
    (((freshWriter Header.empty).WriteHeader 200).gw = none) ∧
    ((mkCfg 1 2 [] (fun _ => "text/plain")).minSize
        ≤ bufLen (appendBuf ((freshWriter Header.empty).WriteHeader 200).buf [7, 8])) ∧
    (handleContentType (mkCfg 1 2 [] (fun _ => "text/plain")).contentTypes
        (((freshWriter Header.empty).WriteHeader 200).sniff
          (mkCfg 1 2 [] (fun _ => "text/plain")) [7, 8]).header = true) ∧
    ((((freshWriter Header.empty).WriteHeader 200).sniff
          (mkCfg 1 2 [] (fun _ => "text/plain")) [7, 8]).header.get contentEncoding = "") ∧
    ((((freshWriter Header.empty).WriteHeader 200).Write
          (mkCfg 1 2 [] (fun _ => "text/plain")) [7, 8]).1.header.get contentEncoding = "gzip" ∧
      (((freshWriter Header.empty).WriteHeader 200).Write
          (mkCfg 1 2 [] (fun _ => "text/plain")) [7, 8]).1.header.has contentLength = false ∧
      (((freshWriter Header.empty).WriteHeader 200).Write
          (mkCfg 1 2 [] (fun _ => "text/plain")) [7, 8]).1.events
        = ((freshWriter Header.empty).WriteHeader 200).events
          ++ (if ((freshWriter Header.empty).WriteHeader 200).code ≠ 0 then
                [SinkEvent.writeHeader ((freshWriter Header.empty).WriteHeader 200).code]
              else []) ∧
      (((freshWriter Header.empty).WriteHeader 200).Write
          (mkCfg 1 2 [] (fun _ => "text/plain")) [7, 8]).1.gw
        = some { level := (mkCfg 1 2 [] (fun _ => "text/plain")).index,
                 written := (appendBuf ((freshWriter Header.empty).WriteHeader 200).buf
                   [7, 8]).getD [] } ∧
      (((freshWriter Header.empty).WriteHeader 200).Write
          (mkCfg 1 2 [] (fun _ => "text/plain")) [7, 8]).1.buf = none ∧
      (((freshWriter Header.empty).WriteHeader 200).Write
          (mkCfg 1 2 [] (fun _ => "text/plain")) [7, 8]).2 = ([7, 8].length, none)) :=
  ⟨rfl, rfl, by decide, rfl, rfl,
    C3_transition_to_streaming (mkCfg 1 2 [] (fun _ => "text/plain"))
      ((freshWriter Header.empty).WriteHeader 200) [7, 8] rfl rfl (by decide)
      rfl rfl⟩

/-- C6: if, during the transition flush of the accumulated buffer into
the freshly acquired compressor, the compressor accepts fewer bytes than
the buffer length while reporting no error, the `Write` call returns the
short-write error to the caller — it is not swallowed and not retried. -/
theorem C6_short_write_is_fatal
    (cfg : Cfg) (st : GzipResponseWriter) (b : List Nat) (n : Nat)
    (hgw : st.gw = none)
    (hlen : cfg.minSize ≤ bufLen (appendBuf st.buf b))
    (hallow : handleContentType cfg.contentTypes (st.sniff cfg b).header = true)
    (hnoce : (st.sniff cfg b).header.get contentEncoding = "")
    (hbeh : cfg.gwBeh ((appendBuf st.buf b).getD []) = (n, none))
    (hn : n < ((appendBuf st.buf b).getD []).length) :
    (st.Write cfg b).2 = (0, some Err.shortWrite) := by
  have hC : (cfg.minSize ≤ bufLen st.buf + b.length ∧
      handleContentType cfg.contentTypes (st.sniff cfg b).header = true ∧
      st.header.get contentEncoding = "") := by
    exact ⟨by simpa using hlen, hallow, by simpa using hnoce⟩
  simp only [getD_appendBuf] at hbeh hn
  simp only [List.length_append] at hn
  by_cases hcode : st.code = 0 <;>
    simp [GzipResponseWriter.Write, GzipResponseWriter.startGzip, hgw, hC, GW.write,
      hbeh, hn, hcode]

/-- Witness for C6: a gzip writer that silently accepts nothing makes
the triggering write fail with the short-write error. -/
theorem C6_witness :
    ((freshWriter Header.empty).gw = none) ∧
    (({ mkCfg 0 1 [] (fun _ => "t") with gwBeh := fun _ => (0, none) } : Cfg).minSize
        ≤ bufLen (appendBuf (freshWriter Header.empty).buf [7, 7])) ∧
    (({ mkCfg 0 1 [] (fun _ => "t") with gwBeh := fun _ => (0, none) } : Cfg).gwBeh
        ((appendBuf (freshWriter Header.empty).buf [7, 7]).getD []) = (0, none)) ∧
    (0 < ((appendBuf (freshWriter Header.empty).buf [7, 7]).getD []).length) ∧
    ((freshWriter Header.empty).Write
        ({ mkCfg 0 1 [] (fun _ => "t") with gwBeh := fun _ => (0, none) } : Cfg) [7, 7]).2
      = (0, some Err.shortWrite) :=
  ⟨rfl, by decide, rfl, by decide,
    C6_short_write_is_fatal
      ({ mkCfg 0 1 [] (fun _ => "t") with gwBeh := fun _ => (0, none) } : Cfg)
      (freshWriter Header.empty) [7, 7] 0 rfl (by decide) rfl rfl rfl (by decide)⟩

/-- C7: the content-type decision allows everything when the filter set
is empty, and otherwise passes exactly when the lower-cased current
`Content-Type` value is a member of the set; consequently a response
whose content type is not in a nonempty allow-list never transitions to
streaming and is written out uncompressed. -/
theorem C7_content_type_filter :
    (∀ h : Header, handleContentType [] h = true) ∧
    (∀ (cts : List String) (h : Header), cts ≠ [] →
      (handleContentType cts h = true ↔ strToLower (h.get contentType) ∈ cts)) ∧
    (∀ (idx m : Nat) (cts : List String) (detect : List Nat → String) (h0 : Header)
      (bs : List (List Nat)), cts ≠ [] → h0.has contentType = true →
      ¬ strToLower (h0.get contentType) ∈ cts →
      (writeAll (mkCfg idx m cts detect) (freshWriter h0) bs).gw = none ∧
      bodyBytes (((writeAll (mkCfg idx m cts detect) (freshWriter h0) bs).Close).1.events)
        = concatAll bs) := by
  have hchar : ∀ (cts : List String) (h : Header), cts ≠ [] →
      (handleContentType cts h = true ↔ strToLower (h.get contentType) ∈ cts) := by
    intro cts h h0
    have hemp : cts.isEmpty = false := by simp [List.isEmpty_iff, h0]
    simp [handleContentType, hemp]
  refine ⟨fun h => rfl, hchar, ?_⟩
  intro idx m cts detect h0 bs hcts hhas hnm
  have hblock : handleContentType cts h0 = false := by
    cases hh : handleContentType cts h0 with
    | false => rfl
    | true => exact absurd ((hchar cts h0 hcts).mp hh) hnm
  have hb := writeAll_blocked (mkCfg idx m cts detect) bs (freshWriter h0) rfl
    (by simpa [freshWriter] using hhas) (by simpa [freshWriter, mkCfg] using hblock)
  obtain ⟨r1, r2, r3, r4, r5, r6⟩ := hb
  refine ⟨r1, ?_⟩
  have hclose := Close_buffered (writeAll (mkCfg idx m cts detect) (freshWriter h0) bs) r1
  obtain ⟨c1, _⟩ := hclose
  rw [c1, r2, r3, r4]
  simp only [freshWriter]
  rcases hc : concatAll bs with _ | ⟨x, xs⟩ <;> simp [appendBuf, hc]

/-- Witness for C7: an allow-list of `application/json` against a
`text/plain` response keeps 600 bytes uncompressed. -/
theorem C7_witness :
    handleContentType [] Header.empty = true ∧
    ((["application/json"] : List String) ≠ []) ∧
    ((Header.empty.set contentType "text/plain").has contentType = true) ∧
    (¬ strToLower ((Header.empty.set contentType "text/plain").get contentType)
        ∈ (["application/json"] : List String)) ∧
    ((writeAll (mkCfg 0 512 ["application/json"] (fun _ => "text/plain"))
        (freshWriter (Header.empty.set contentType "text/plain"))
        [List.replicate 600 65]).gw = none ∧
      bodyBytes (((writeAll (mkCfg 0 512 ["application/json"] (fun _ => "text/plain"))
          (freshWriter (Header.empty.set contentType "text/plain"))
          [List.replicate 600 65]).Close).1.events)
        = concatAll [List.replicate 600 65]) :=
  ⟨rfl, by decide, by decide, by decide,
    C7_content_type_filter.2.2 0 512 ["application/json"] (fun _ => "text/plain")
      (Header.empty.set contentType "text/plain") [List.replicate 600 65]
      (by decide) (by decide) (by decide)⟩

/-- C10: `h1.ReadFrom` pushes every chunk read from the source through
the compressing writer's `Write` path — the copy equals the iterated
write sequence, reports the total byte count with no error, and in
particular stays subject to buffering and the threshold decision: below
the threshold nothing reaches the sink and no compressor is started. -/
theorem C10_readfrom_uses_write_path
    (idx m : Nat) (cts : List String) (detect : List Nat → String)
    (st : GzipResponseWriter) (chunks : List (List Nat)) :
    h1ReadFrom (mkCfg idx m cts detect) st chunks
      = (writeAll (mkCfg idx m cts detect) st chunks, (concatAll chunks).length, none) ∧
    (st.gw = none → bufLen st.buf + (concatAll chunks).length < m →
      (h1ReadFrom (mkCfg idx m cts detect) st chunks).1.events = st.events ∧
      (h1ReadFrom (mkCfg idx m cts detect) st chunks).1.gw = none) := by
  have hmain : ∀ (cs : List (List Nat)) (s : GzipResponseWriter),
      h1ReadFrom (mkCfg idx m cts detect) s cs
        = (writeAll (mkCfg idx m cts detect) s cs, (concatAll cs).length, none) := by
    intro cs
    induction cs with
    | nil => intro s; simp [h1ReadFrom]
    | cons c rest ih =>
      intro s
      have hw := Write_real_result (mkCfg idx m cts detect) rfl s c
      simp [h1ReadFrom, hw, ih]
  refine ⟨hmain chunks st, ?_⟩
  intro hgw hlen
  rw [hmain chunks st]
  have hb := writeAll_below (mkCfg idx m cts detect) chunks st hgw
    (by simpa [mkCfg] using hlen)
  exact ⟨hb.2.1, hb.1⟩

/-- Witness for C10: two small chunks are copied through the write path,
stay buffered, and leave the sink untouched. -/
theorem C10_witness :
    (h1ReadFrom (mkCfg 0 512 [] (fun _ => "t")) (freshWriter Header.empty) [[1], [2, 3]]
        = (writeAll (mkCfg 0 512 [] (fun _ => "t")) (freshWriter Header.empty) [[1], [2, 3]],
            (concatAll [[1], [2, 3]]).length, none)) ∧
    ((freshWriter Header.empty).gw = none) ∧
    (bufLen (freshWriter Header.empty).buf + (concatAll [[1], [2, 3]]).length < 512) ∧
    ((h1ReadFrom (mkCfg 0 512 [] (fun _ => "t")) (freshWriter Header.empty)
        [[1], [2, 3]]).1.events = (freshWriter Header.empty).events ∧
      (h1ReadFrom (mkCfg 0 512 [] (fun _ => "t")) (freshWriter Header.empty)
        [[1], [2, 3]]).1.gw = none) :=
  ⟨(C10_readfrom_uses_write_path 0 512 [] (fun _ => "t") (freshWriter Header.empty)
      [[1], [2, 3]]).1, rfl, by decide,
    (C10_readfrom_uses_write_path 0 512 [] (fun _ => "t") (freshWriter Header.empty)
      [[1], [2, 3]]).2 rfl (by decide)⟩

section StepLemmasAlt

variable (cfg : Cfg) (st : GzipResponseWriterAlt) (b : List Nat)

@[simp] lemma sniffAlt_gw : (st.sniff cfg b).gw = st.gw := by
  unfold GzipResponseWriterAlt.sniff; split <;> rfl

@[simp] lemma sniffAlt_buf : (st.sniff cfg b).buf = st.buf := by
  unfold GzipResponseWriterAlt.sniff; split <;> rfl

@[simp] lemma sniffAlt_events : (st.sniff cfg b).events = st.events := by
  unfold GzipResponseWriterAlt.sniff; split <;> rfl

@[simp] lemma sniffAlt_code : (st.sniff cfg b).code = st.code := by
  unfold GzipResponseWriterAlt.sniff; split <;> rfl

@[simp] lemma sniffAlt_headerWritten : (st.sniff cfg b).headerWritten = st.headerWritten := by
  unfold GzipResponseWriterAlt.sniff; split <;> rfl

@[simp] lemma sniffAlt_gzipResponse : (st.sniff cfg b).gzipResponse = st.gzipResponse := by
  unfold GzipResponseWriterAlt.sniff; split <;> rfl

@[simp] lemma sniffAlt_poolPuts : (st.sniff cfg b).poolPuts = st.poolPuts := by
  unfold GzipResponseWriterAlt.sniff; split <;> rfl

@[simp] lemma emitHeaderAlt_gw : (st.emitHeader).gw = st.gw := by
  unfold GzipResponseWriterAlt.emitHeader; split <;> [rfl; split <;> rfl]

@[simp] lemma emitHeaderAlt_buf : (st.emitHeader).buf = st.buf := by
  unfold GzipResponseWriterAlt.emitHeader; split <;> [rfl; split <;> rfl]

@[simp] lemma emitHeaderAlt_header : (st.emitHeader).header = st.header := by
  unfold GzipResponseWriterAlt.emitHeader; split <;> [rfl; split <;> rfl]

@[simp] lemma emitHeaderAlt_code : (st.emitHeader).code = st.code := by
  unfold GzipResponseWriterAlt.emitHeader; split <;> [rfl; split <;> rfl]

@[simp] lemma emitHeaderAlt_gzipResponse : (st.emitHeader).gzipResponse = st.gzipResponse := by
  unfold GzipResponseWriterAlt.emitHeader; split <;> [rfl; split <;> rfl]

@[simp] lemma emitHeaderAlt_poolPuts : (st.emitHeader).poolPuts = st.poolPuts := by
  unfold GzipResponseWriterAlt.emitHeader; split <;> [rfl; split <;> rfl]

lemma emitHeaderAlt_events : (st.emitHeader).events = st.events ++
    (if st.headerWritten = false ∧ st.code ≠ 0 then [SinkEvent.writeHeader st.code]
     else []) := by
  unfold GzipResponseWriterAlt.emitHeader
  by_cases hw : st.headerWritten <;> by_cases hc : st.code = 0 <;> simp [hw, hc]

/-- The alternative `startGzip` on an undecided writer with a
well-behaved gzip library, field by field. -/
lemma AltStartGzip_real (hbeh : cfg.gwBeh = realGwWrite) (hgw : st.gw = none) :
    (st.startGzip cfg).2 = none ∧
    (st.startGzip cfg).1.gw = some { level := cfg.index, written := st.buf.getD [] } ∧
    (st.startGzip cfg).1.buf = none ∧
    (st.startGzip cfg).1.gzipResponse = st.gzipResponse ∧
    (st.startGzip cfg).1.header = (st.header.set contentEncoding "gzip").del contentLength ∧
    (st.startGzip cfg).1.events = st.events ++
      (if st.headerWritten = false ∧ st.code ≠ 0 then [SinkEvent.writeHeader st.code]
       else []) ∧
    (st.startGzip cfg).1.code = st.code ∧
    (st.startGzip cfg).1.poolPuts = st.poolPuts := by
  unfold GzipResponseWriterAlt.startGzip
  simp [hgw, hbeh, GW.write, realGwWrite, emitHeaderAlt_events]

/-- Once a gzip writer is active, the alternative `Write` forwards the
chunk into it and touches nothing else. -/
lemma AltWrite_stream (g : GW) (hbeh : cfg.gwBeh = realGwWrite) (hgw : st.gw = some g) :
    (st.Write cfg b).1.gw = some { level := g.level, written := g.written ++ b } ∧
    (st.Write cfg b).1.buf = st.buf ∧
    (st.Write cfg b).1.events = st.events ∧
    (st.Write cfg b).1.gzipResponse = st.gzipResponse ∧
    (st.Write cfg b).2 = (b.length, none) := by
  simp [GzipResponseWriterAlt.Write, hgw, hbeh, GW.write, realGwWrite]

/-- An undecided alternative writer's write, with a well-behaved gzip
library: the buffer and an active compressor never coexist afterwards,
and a set `gzipResponse` flag makes the write acquire a gzip writer and
keeps the flag. -/
lemma AltWrite_none_real (hbeh : cfg.gwBeh = realGwWrite) (hgw : st.gw = none) :
    ((st.Write cfg b).1.buf.isSome = true → (st.Write cfg b).1.gw = none) ∧
    (st.gzipResponse = true → ((st.Write cfg b).1.gw).isSome = true
        ∧ (st.Write cfg b).1.gzipResponse = true) := by
  have htake : ∀ a c : List Nat, (a ++ c).take (a.length + c.length) = a ++ c := by
    intro a c
    rw [← List.length_append]
    exact List.take_length _
  by_cases hflag : st.gzipResponse = true
  all_goals by_cases hcond : (cfg.minSize ≤ bufLen (some (st.buf.getD [] ++ b)) ∧
      handleContentType cfg.contentTypes (st.sniff cfg b).header = true ∧
      (st.sniff cfg b).header.get contentEncoding = "")
  all_goals
    simp [GzipResponseWriterAlt.Write, GzipResponseWriterAlt.startGzip, hgw, hflag, hcond,
      GW.write, hbeh, realGwWrite, apply_ite, htake]

/-- The two single-step invariants of the alternative writer: the buffer
and an active compressor never coexist after a step, and the one-way
`gzipResponse` flag never reverts. -/
lemma AltStep_inv (op : OpB) (hbeh : cfg.gwBeh = realGwWrite)
    (hinv : st.buf.isSome = true → st.gw = none) :
    ((st.step cfg op).buf.isSome = true → (st.step cfg op).gw = none) ∧
    (st.gzipResponse = true → (st.step cfg op).gzipResponse = true) := by
  cases op with
  | setCode c =>
    by_cases hw : (¬st.code = 0 ∨ st.headerWritten = true) <;>
      simp_all [GzipResponseWriterAlt.step, GzipResponseWriterAlt.WriteHeader]
  | close =>
    unfold GzipResponseWriterAlt.step GzipResponseWriterAlt.Close
    rcases hgw : (st.emitHeader).gw with _ | g
    · rcases hbuf : (st.emitHeader).buf with _ | bs <;> simp_all
    · simp_all
  | flush =>
    rcases hgw : st.gw with _ | g <;>
      by_cases hfl : cfg.sinkFlusher <;>
      simp_all [GzipResponseWriterAlt.step, GzipResponseWriterAlt.Flush,
        GzipResponseWriterAlt.flushEarly] <;>
      split <;> simp_all
  | write b =>
    unfold GzipResponseWriterAlt.step
    rcases hgw : st.gw with _ | g
    · have h1 := AltWrite_none_real cfg st b hbeh hgw
      refine ⟨h1.1, ?_⟩
      intro hflag
      exact (h1.2 hflag).2
    · have h1 := AltWrite_stream cfg st b g hbeh hgw
      constructor
      · intro hb
        rw [h1.2.1] at hb
        rw [hinv hb] at hgw
        cases hgw
      · intro hflag
        rw [h1.2.2.2.1]
        exact hflag

end StepLemmasAlt

/-- The step invariants extended along any operation sequence. -/
lemma foldl_step_inv (cfg : Cfg) (hbeh : cfg.gwBeh = realGwWrite) :
    ∀ (ops : List OpB) (st : GzipResponseWriterAlt),
    (st.buf.isSome = true → st.gw = none) →
    (((ops.foldl (GzipResponseWriterAlt.step cfg) st).buf.isSome = true →
        (ops.foldl (GzipResponseWriterAlt.step cfg) st).gw = none) ∧
      (st.gzipResponse = true →
        (ops.foldl (GzipResponseWriterAlt.step cfg) st).gzipResponse = true)) := by
  intro ops
  induction ops with
  | nil => intro st hinv; exact ⟨hinv, fun h => h⟩
  | cons op rest ih =>
    intro st hinv
    have hstep := AltStep_inv cfg st op hbeh hinv
    have hrec := ih (st.step cfg op) hstep.1
    exact ⟨hrec.1, fun hf => hrec.2 (hstep.2 hf)⟩

/-- C8: once the decision to compress has been made it never reverts —
along every operation sequence of the alternative writer the
`gzipResponse` flag is one-way, the accumulation buffer and an active
compressor are never both in use, and once a compressor is active every
write is forwarded into it (buffer, sink trace and the flag untouched). -/
theorem C8_streaming_is_one_way
    (idx m : Nat) (cts : List String) (detect : List Nat → String) (h0 : Header)
    (ops : List OpB) :
    (¬((runAlt (mkCfg idx m cts detect) h0 ops).buf.isSome = true ∧
       ((runAlt (mkCfg idx m cts detect) h0 ops).gw).isSome = true)) ∧
    (∀ more : List OpB, (runAlt (mkCfg idx m cts detect) h0 ops).gzipResponse = true →
       (runAlt (mkCfg idx m cts detect) h0 (ops ++ more)).gzipResponse = true) ∧
    (∀ (g : GW) (b : List Nat),
       (runAlt (mkCfg idx m cts detect) h0 ops).gw = some g →
       (((runAlt (mkCfg idx m cts detect) h0 ops).Write (mkCfg idx m cts detect) b).1.gw
           = some { level := g.level, written := g.written ++ b } ∧
         ((runAlt (mkCfg idx m cts detect) h0 ops).Write (mkCfg idx m cts detect) b).1.buf
           = (runAlt (mkCfg idx m cts detect) h0 ops).buf ∧
         ((runAlt (mkCfg idx m cts detect) h0 ops).Write (mkCfg idx m cts detect) b).1.events
           = (runAlt (mkCfg idx m cts detect) h0 ops).events ∧
         ((runAlt (mkCfg idx m cts detect) h0 ops).Write (mkCfg idx m cts detect) b).2
           = (b.length, none))) := by
  have hbase : (freshWriterAlt h0).buf.isSome = true → (freshWriterAlt h0).gw = none := by
    intro _; rfl
  have hinv := foldl_step_inv (mkCfg idx m cts detect) rfl ops (freshWriterAlt h0) hbase
  refine ⟨?_, ?_, ?_⟩
  · rintro ⟨hb, hg⟩
    rw [show (runAlt (mkCfg idx m cts detect) h0 ops).gw = none from hinv.1 hb] at hg
    simp at hg
  · intro more hf
    have : runAlt (mkCfg idx m cts detect) h0 (ops ++ more)
        = more.foldl (GzipResponseWriterAlt.step (mkCfg idx m cts detect))
            (runAlt (mkCfg idx m cts detect) h0 ops) := by
      unfold runAlt
      exact List.foldl_append _ _ _ _
    rw [this]
    exact (foldl_step_inv (mkCfg idx m cts detect) rfl more
      (runAlt (mkCfg idx m cts detect) h0 ops) hinv.1).2 hf
  · intro g b hg
    have h1 := AltWrite_stream (mkCfg idx m cts detect)
      (runAlt (mkCfg idx m cts detect) h0 ops) b g rfl hg
    exact ⟨h1.1, h1.2.1, h1.2.2.1, h1.2.2.2.2⟩

/-- Witness for C8: after one above-threshold write the flag is set and
stays set across a further flush, and a follow-up write is forwarded into
the active compressor. -/
theorem C8_witness :
    (¬((runAlt (mkCfg 0 2 [] (fun _ => "t")) Header.empty [OpB.write [1, 2, 3]]).buf.isSome
          = true ∧
       ((runAlt (mkCfg 0 2 [] (fun _ => "t")) Header.empty [OpB.write [1, 2, 3]]).gw).isSome
          = true)) ∧
    ((runAlt (mkCfg 0 2 [] (fun _ => "t")) Header.empty
        ([OpB.write [1, 2, 3]] ++ [OpB.flush])).gzipResponse = true) ∧
    (((runAlt (mkCfg 0 2 [] (fun _ => "t")) Header.empty [OpB.write [1, 2, 3]]).Write
          (mkCfg 0 2 [] (fun _ => "t")) [4]).1.gw
        = some { level := 0, written := [1, 2, 3] ++ [4] }) :=
  ⟨(C8_streaming_is_one_way 0 2 [] (fun _ => "t") Header.empty [OpB.write [1, 2, 3]]).1,
    (C8_streaming_is_one_way 0 2 [] (fun _ => "t") Header.empty [OpB.write [1, 2, 3]]).2.1
      [OpB.flush] rfl,
    ((C8_streaming_is_one_way 0 2 [] (fun _ => "t") Header.empty [OpB.write [1, 2, 3]]).2.2
      { level := 0, written := [1, 2, 3] } [4] rfl).1⟩

/-- C4, counterexample to the claim as stated: a buffering writer over a
flushing sink, 10 bytes written (below the 512 threshold), no encoding
header pre-set — `Flush` does *not* begin compression and does *not*
remove the `Content-Length` header; it only emits the flush. -/
theorem C4_counterexample :
    (mkCfg 0 512 [] (fun _ => "text/plain")).sinkFlusher = true ∧
    (((freshWriterAlt ((Header.empty.set contentType "text/plain").set contentLength "100")).Write
        (mkCfg 0 512 [] (fun _ => "text/plain")) (List.replicate 10 65)).1.gw = none) ∧
    ((((freshWriterAlt ((Header.empty.set contentType "text/plain").set contentLength
          "100")).Write (mkCfg 0 512 [] (fun _ => "text/plain"))
          (List.replicate 10 65)).1.Flush (mkCfg 0 512 [] (fun _ => "text/plain"))).gzipResponse
        = false) ∧
    ((((freshWriterAlt ((Header.empty.set contentType "text/plain").set contentLength
          "100")).Write (mkCfg 0 512 [] (fun _ => "text/plain"))
          (List.replicate 10 65)).1.Flush (mkCfg 0 512 [] (fun _ => "text/plain"))).gw = none) ∧
    ((((freshWriterAlt ((Header.empty.set contentType "text/plain").set contentLength
          "100")).Write (mkCfg 0 512 [] (fun _ => "text/plain"))
          (List.replicate 10 65)).1.Flush (mkCfg 0 512 [] (fun _ => "text/plain"))).header.has
        contentLength = true) := by
  refine ⟨rfl, ?_, ?_, ?_, ?_⟩ <;> decide

/-- C4 as amended: for a buffering writer over a flushing sink, `Flush`
begins compression early only when an encoding header is already set to
gzip and the content type is allowed — then `Content-Length` is removed,
the one-way flag is set, and streaming starts at the very next write;
otherwise headers and flag are untouched.  In all cases the pending
status line is emitted and the sink is flushed. -/
theorem C4_flush_early_conditional
    (cfg : Cfg) (st : GzipResponseWriterAlt)
    (hbeh : cfg.gwBeh = realGwWrite) (hfl : cfg.sinkFlusher = true)
    (hgw : st.gw = none) :
    ((st.header.get contentEncoding = "gzip"
        ∧ handleContentType cfg.contentTypes st.header = true) →
      ((st.Flush cfg).gzipResponse = true ∧
       (st.Flush cfg).header.has contentLength = false ∧
       (st.Flush cfg).gw = none ∧
       ∀ b : List Nat, (((st.Flush cfg).Write cfg b).1.gw).isSome = true)) ∧
    (¬(st.header.get contentEncoding = "gzip"
        ∧ handleContentType cfg.contentTypes st.header = true) →
      ((st.Flush cfg).header = st.header ∧
       (st.Flush cfg).gzipResponse = st.gzipResponse ∧
       (st.Flush cfg).gw = none)) ∧
    ((st.Flush cfg).events = st.events
      ++ (if st.headerWritten = false ∧ st.code ≠ 0 then [SinkEvent.writeHeader st.code]
          else [])
      ++ [SinkEvent.flush]) := by
  have hflush : st.Flush cfg = st.flushEarly cfg := by
    unfold GzipResponseWriterAlt.Flush
    rw [hgw]
    simp [hfl]
  rw [hflush]
  by_cases hcond : (st.header.get contentEncoding = "gzip"
      ∧ handleContentType cfg.contentTypes st.header = true)
  · have hfields : (st.flushEarly cfg).gzipResponse = true ∧
        (st.flushEarly cfg).header = st.header.del contentLength ∧
        (st.flushEarly cfg).gw = none := by
      unfold GzipResponseWriterAlt.flushEarly
      simp [hcond, hgw]
    refine ⟨fun _ => ?_, fun hn => absurd hcond hn, ?_⟩
    · refine ⟨hfields.1, ?_, hfields.2.2, ?_⟩
      · rw [hfields.2.1]
        exact Header.has_del_self _ _
      · intro b
        exact ((AltWrite_none_real cfg (st.flushEarly cfg) b hbeh hfields.2.2).2
          hfields.1).1
    · unfold GzipResponseWriterAlt.flushEarly
      simp [hcond, emitHeaderAlt_events]
  · refine ⟨fun hy => absurd hy hcond, fun _ => ?_, ?_⟩
    · unfold GzipResponseWriterAlt.flushEarly
      simp [hcond, hgw]
    · unfold GzipResponseWriterAlt.flushEarly
      simp [hcond, emitHeaderAlt_events]

/-- Witness for C4 as amended: with `Content-Encoding: gzip` pre-set and
an empty allow-list, a below-threshold flush sets the flag, drops the
length header, and the next write acquires a compressor. -/
theorem C4_witness :
    ((mkCfg 0 512 [] (fun _ => "t")).sinkFlusher = true) ∧
    (((freshWriterAlt (((Header.empty.set contentType "text/plain").set contentLength
        "100").set contentEncoding "gzip")).Write (mkCfg 0 512 [] (fun _ => "t"))
        (List.replicate 10 65)).1.gw = none) ∧
    ((((freshWriterAlt (((Header.empty.set contentType "text/plain").set contentLength
        "100").set contentEncoding "gzip")).Write (mkCfg 0 512 [] (fun _ => "t"))
        (List.replicate 10 65)).1.Flush (mkCfg 0 512 [] (fun _ => "t"))).gzipResponse
        = true) ∧
    ((((freshWriterAlt (((Header.empty.set contentType "text/plain").set contentLength
        "100").set contentEncoding "gzip")).Write (mkCfg 0 512 [] (fun _ => "t"))
        (List.replicate 10 65)).1.Flush (mkCfg 0 512 [] (fun _ => "t"))).header.has
        contentLength = false) ∧
    (((((freshWriterAlt (((Header.empty.set contentType "text/plain").set contentLength
        "100").set contentEncoding "gzip")).Write (mkCfg 0 512 [] (fun _ => "t"))
        (List.replicate 10 65)).1.Flush (mkCfg 0 512 [] (fun _ => "t"))).Write
        (mkCfg 0 512 [] (fun _ => "t")) [9]).1.gw).isSome = true := by
  have h := C4_flush_early_conditional (mkCfg 0 512 [] (fun _ => "t"))
    ((freshWriterAlt (((Header.empty.set contentType "text/plain").set contentLength
        "100").set contentEncoding "gzip")).Write (mkCfg 0 512 [] (fun _ => "t"))
        (List.replicate 10 65)).1 rfl rfl (by decide)
  have hc := h.1 ⟨by decide, rfl⟩
  exact ⟨rfl, by decide, hc.1, hc.2.1, hc.2.2.2 [9]⟩

/-- C5, counterexample to the claim as stated: on the primary
implementation, a writer that closed on the buffering path (status 200,
three buffered bytes) emits the status line and the body *again* when
closed a second time — the buffered bytes are written twice. -/
theorem C5_counterexample :
    (((((freshWriter Header.empty).WriteHeader 200).Write
          (mkCfg 0 512 [] (fun _ => "text/plain")) [1, 2, 3]).1.Close).1.Close).1.events
      ≠ ((((freshWriter Header.empty).WriteHeader 200).Write
          (mkCfg 0 512 [] (fun _ => "text/plain")) [1, 2, 3]).1.Close).1.events := by
  decide

/-- C5 as amended: once streaming has begun (active compressor, cleared
buffer), a second `Close` never writes body bytes a second time and never
returns a compressor to the pool a second time, in either implementation.
In the alternative implementation (with the header-written guard) the
second call is a complete no-op; in the primary implementation it still
re-emits a recorded status line — and nothing else — because the saved
code is never cleared and there is no emission guard. -/
theorem C5_close_repeat_behaviour :
    (∀ (st : GzipResponseWriter) (g : GW), st.gw = some g → st.buf = none →
      ((st.Close).1.poolPuts = st.poolPuts + 1 ∧
       ((st.Close).1.Close).1.poolPuts = (st.Close).1.poolPuts ∧
       ((st.Close).1.Close).1.events = (st.Close).1.events
          ++ (if st.code ≠ 0 then [SinkEvent.writeHeader st.code] else []) ∧
       bodyBytes ((st.Close).1.Close).1.events = bodyBytes (st.Close).1.events)) ∧
    (∀ (st : GzipResponseWriterAlt) (g : GW), st.gw = some g → st.buf = none →
      (((st.Close).1.Close).1 = (st.Close).1 ∧
       ((st.Close).1.Close).2 = none ∧
       (st.Close).1.poolPuts = st.poolPuts + 1)) := by
  constructor
  · intro st g hgw hbuf
    obtain ⟨e1, e2, e3, e4, e5, e6, _⟩ := Close_stream st g hgw
    obtain ⟨f1, _, f3, _, _, _⟩ := Close_buffered (st.Close).1 e2
    have hb2 : ((st.Close).1.Close).1.events
        = (st.Close).1.events
          ++ (if st.code ≠ 0 then [SinkEvent.writeHeader st.code] else []) := by
      rw [f1, e5, hbuf, e6]
      simp
    refine ⟨e3, f3, hb2, ?_⟩
    rw [hb2, bodyBytes_append]
    by_cases hc : st.code = 0 <;> simp [hc]
  · intro st g hgw hbuf
    by_cases hw : st.headerWritten <;> by_cases hc : st.code = 0 <;>
      simp [GzipResponseWriterAlt.Close, GzipResponseWriterAlt.emitHeader, hgw, hbuf,
        hw, hc]

/-- Witness for C5 as amended: a primary writer that streamed with a
recorded 200 status, closed twice (one pool release, the status line but
no body bytes the second time), and an alternative streaming writer
closed twice (full no-op). -/
theorem C5_witness :
    ((((((freshWriter Header.empty).WriteHeader 200).Write (mkCfg 0 2 [] (fun _ => "t"))
          [1, 2, 3]).1.Close).1.poolPuts
        = ((((freshWriter Header.empty).WriteHeader 200).Write (mkCfg 0 2 [] (fun _ => "t"))
          [1, 2, 3]).1.poolPuts) + 1) ∧
      bodyBytes ((((((freshWriter Header.empty).WriteHeader 200).Write
          (mkCfg 0 2 [] (fun _ => "t")) [1, 2, 3]).1.Close).1.Close).1.events)
        = bodyBytes (((((freshWriter Header.empty).WriteHeader 200).Write
          (mkCfg 0 2 [] (fun _ => "t")) [1, 2, 3]).1.Close).1.events)) ∧
    ((((freshWriterAlt Header.empty).Write (mkCfg 0 2 [] (fun _ => "t")) [1, 2, 3]).1.gw
        = some { level := 0, written := [1, 2, 3] }) ∧
      (((((freshWriterAlt Header.empty).Write (mkCfg 0 2 [] (fun _ => "t"))
          [1, 2, 3]).1.Close).1.Close).1
        = ((((freshWriterAlt Header.empty).Write (mkCfg 0 2 [] (fun _ => "t"))
          [1, 2, 3]).1.Close).1)) ∧
      (((((freshWriterAlt Header.empty).Write (mkCfg 0 2 [] (fun _ => "t"))
          [1, 2, 3]).1.Close).1.poolPuts)
        = (((freshWriterAlt Header.empty).Write (mkCfg 0 2 [] (fun _ => "t"))
          [1, 2, 3]).1.poolPuts) + 1)) := by
  have hp := C5_close_repeat_behaviour.1
    ((((freshWriter Header.empty).WriteHeader 200).Write (mkCfg 0 2 [] (fun _ => "t"))
        [1, 2, 3]).1)
    { level := 0, written := [1, 2, 3] } rfl rfl
  have ha := C5_close_repeat_behaviour.2
    (((freshWriterAlt Header.empty).Write (mkCfg 0 2 [] (fun _ => "t")) [1, 2, 3]).1)
    { level := 0, written := [1, 2, 3] } rfl rfl
  exact ⟨⟨hp.1, hp.2.2.2⟩, rfl, ha.1, ha.2.2⟩

/-- C9, counterexample to the claim as stated: on the HTTP/1.1 wrapper
variant, a takeover attempt against a sink without the capability panics
(unchecked type assertion) instead of failing with the
capability-unsupported error. -/
theorem C9_counterexample :
    (mkCfg 0 512 [] (fun _ => "t")).sinkHijacker = false ∧
    h1Hijack (mkCfg 0 512 [] (fun _ => "t")) = HijackRes.panicked ∧
    HijackRes.panicked ≠ HijackRes.errUnsupported :=
  ⟨rfl, rfl, by decide⟩

/-- C9 as amended: when the sink supports takeover both the base writer
and the HTTP/1.1 wrapper hand the live connection over verbatim; when it
does not, the base writer fails with the capability-unsupported error
while the HTTP/1.1 wrapper's unchecked assertion panics. -/
theorem C9_hijack_forwarding (cfg : Cfg) :
    (cfg.sinkHijacker = true →
      GzipResponseWriter.Hijack cfg = HijackRes.conn cfg.sinkConn ∧
      h1Hijack cfg = HijackRes.conn cfg.sinkConn) ∧
    (cfg.sinkHijacker = false →
      GzipResponseWriter.Hijack cfg = HijackRes.errUnsupported ∧
      h1Hijack cfg = HijackRes.panicked) := by
  constructor <;> intro h <;> simp [GzipResponseWriter.Hijack, h1Hijack, h]

/-- Witness for C9 as amended, on a hijackable sink (connection id 5) and
on a plain sink. -/
theorem C9_witness :
    (GzipResponseWriter.Hijack
        ({ mkCfg 0 512 [] (fun _ => "t") with sinkHijacker := true, sinkConn := 5 } : Cfg)
      = HijackRes.conn 5 ∧
     h1Hijack
        ({ mkCfg 0 512 [] (fun _ => "t") with sinkHijacker := true, sinkConn := 5 } : Cfg)
      = HijackRes.conn 5) ∧
    (GzipResponseWriter.Hijack (mkCfg 0 512 [] (fun _ => "t"))
      = HijackRes.errUnsupported ∧
     h1Hijack (mkCfg 0 512 [] (fun _ => "t")) = HijackRes.panicked) :=
  ⟨(C9_hijack_forwarding
      ({ mkCfg 0 512 [] (fun _ => "t") with sinkHijacker := true, sinkConn := 5 } : Cfg)).1
      rfl,
    (C9_hijack_forwarding (mkCfg 0 512 [] (fun _ => "t"))).2 rfl⟩

end Gziphandler
